import Mathlib

/-!
Verification of `src/main.py` (imgfapdl): URL identity resolution,
gallery-source caching, photo-page link extraction and image download.

Python strings are embedded as `List Char`; the fragment of
`urllib.parse.urlparse` that the program exercises (scheme / netloc /
path / params / query / fragment splitting and the `hostname` accessor,
restricted to netlocs without bracketed IPv6 hosts) is modelled
faithfully below.  Regular-expression word characters are modelled at
the ASCII fragment (the URLs the program handles are ASCII).
-/

namespace Imgfapdl

/-- Python strings, embedded as lists of characters. -/
abbrev PStr := List Char

/-- Conversion from Lean string literals to the embedding. -/
def pstr (s : String) : PStr := s.data

/-- Errors the Python code can raise.  `invalidDomainError` is the
`RuntimeError` of the domain check, `unrecognizedURLFormatError` the
final `RuntimeError` of `extract_gallery_id`; `indexError` and
`attributeError` are the interpreter-level exceptions reachable from
`path[0]` / `path[1]` and `None.startswith`. -/
inductive PyError where
  | invalidDomainError
  | unrecognizedURLFormatError
  | indexError
  | attributeError
  | missingPhotoError
  | valueError
  deriving DecidableEq, Repr

instance {ε α : Type} [DecidableEq ε] [DecidableEq α] : DecidableEq (Except ε α) := fun a b =>
  match a, b with
  | .error e, .error f =>
    if h : e = f then .isTrue (by rw [h]) else .isFalse (fun c => by cases c; exact h rfl)
  | .ok x, .ok y =>
    if h : x = y then .isTrue (by rw [h]) else .isFalse (fun c => by cases c; exact h rfl)
  | .error _, .ok _ => .isFalse (fun c => by cases c)
  | .ok _, .error _ => .isFalse (fun c => by cases c)

/-! ### String primitives (Python `str` operations) -/

/-- Index of the first occurrence of a character: splits the list at the
first `t`, returning the parts before and after it (`str.find` +
slicing). -/
def breakAtChar (t : Char) : PStr → Option (PStr × PStr)
  | [] => none
  | c :: cs =>
    if c = t then some ([], cs)
    else (breakAtChar t cs).map (fun p => (c :: p.1, p.2))

/-- Split once at the first occurrence of `t`; if `t` is absent the
second component is empty (`str.split(t, 1)` with padding). -/
def splitOnceChar (t : Char) (l : PStr) : PStr × PStr :=
  (breakAtChar t l).getD (l, [])

/-- Python `str.split(t)` for a one-character separator: `"".split(t)`
is `[""]`. -/
def splitOnChar (t : Char) : PStr → List PStr
  | [] => [[]]
  | c :: cs =>
    match splitOnChar t cs with
    | [] => [[]]
    | s :: ss => if c = t then [] :: s :: ss else (c :: s) :: ss

/-- Python `a in b` on strings: `isPrefixC n h` is `h.startswith(n)`. -/
def isPrefixC : PStr → PStr → Bool
  | [], _ => true
  | _ :: _, [] => false
  | a :: as_, b :: bs => a = b && isPrefixC as_ bs

/-- Python substring containment `n in h`. -/
def containsSubC (n : PStr) : PStr → Bool
  | [] => n.isEmpty
  | c :: t => isPrefixC n (c :: t) || containsSubC n t

/-! ### Character classes -/

/-- WHATWG C0-control-or-space class stripped from the front of a URL
by `urllib.parse.urlsplit`. -/
def isC0orSpace (c : Char) : Bool := c.toNat ≤ 0x20

/-- The unsafe bytes `\t`, `\r`, `\n` removed everywhere by
`urllib.parse.urlsplit`. -/
def isUnsafeUrlByte (c : Char) : Bool := c = '\t' || c = '\r' || c = '\n'

/-- Characters allowed in a URL scheme (letters, digits, `+`, `-`,
`.`). -/
def isSchemeChar (c : Char) : Bool := c.isAlphanum || c = '+' || c = '-' || c = '.'

/-- Regex `\w` at the ASCII fragment: letter, digit or underscore. -/
def isWordChar (c : Char) : Bool :=
  (65 ≤ c.toNat && c.toNat ≤ 90) || (97 ≤ c.toNat && c.toNat ≤ 122) ||
    (48 ≤ c.toNat && c.toNat ≤ 57) || c.toNat = 95

/-- ASCII decimal digit. -/
def isDigitChar (c : Char) : Bool := 48 ≤ c.toNat && c.toNat ≤ 57

/-- ASCII hexadecimal digit, both cases (the class `[a-fA-F0-9]`). -/
def isHexDigitChar (c : Char) : Bool :=
  isDigitChar c || (97 ≤ c.toNat && c.toNat ≤ 102) || (65 ≤ c.toNat && c.toNat ≤ 70)

/-- Numeric value of a string of decimal digits. -/
def decValue (l : PStr) : Nat := l.foldl (fun acc c => acc * 10 + (c.toNat - 48)) 0

/-! ### The `urllib.parse.urlparse` model -/

/-- The components of `urllib.parse.ParseResult` used by the program. -/
structure UrlStruct where
  scheme : PStr
  netloc : PStr
  path : PStr
  params : PStr
  query : PStr
  fragment : PStr
  deriving DecidableEq, Repr

/-- Scheme recognition of `urlsplit`: the text before the first `:` is
a scheme when it is nonempty, starts with an ASCII letter and consists
of scheme characters; it is then lower-cased and consumed. -/
def splitScheme (url : PStr) : PStr × PStr :=
  match breakAtChar ':' url with
  | none => ([], url)
  | some (before, after) =>
    match before with
    | [] => ([], url)
    | c :: _ =>
      if c.isAlpha && before.all isSchemeChar then
        (before.map Char.toLower, after)
      else ([], url)

/-- Netloc recognition of `urlsplit` (`url[:2] == '//'` followed by
`_splitnetloc`): after a leading `//`, the netloc runs to the first
`/`, `?` or `#`. -/
def splitNetloc (url : PStr) : PStr × PStr :=
  if url.take 2 = pstr "//" then
    ((url.drop 2).takeWhile (fun c => !(c = '/' || c = '?' || c = '#')),
     (url.drop 2).dropWhile (fun c => !(c = '/' || c = '?' || c = '#')))
  else ([], url)

/-- `_splitparams`: strip `;params` from the last path segment. -/
def splitparams (p : PStr) : PStr × PStr :=
  if p.contains ';' then
    if p.contains '/' then
      let pre := (p.reverse.dropWhile (fun c => c ≠ '/')).reverse
      let lastSeg := p.reverse.takeWhile (fun c => c ≠ '/')
      match breakAtChar ';' lastSeg.reverse with
      | none => (p, [])
      | some (a, b) => (pre ++ a, b)
    else
      match breakAtChar ';' p with
      | none => (p, [])
      | some (a, b) => (a, b)
  else (p, [])

/-- The input cleanup of `urlsplit`: strip leading WHATWG C0 controls
and spaces, remove `\t\r\n` everywhere. -/
def cleanUrl (url : PStr) : PStr :=
  (url.dropWhile isC0orSpace).filter (fun c => !isUnsafeUrlByte c)

/-- The value computed by `urllib.parse.urlsplit` on its non-raising
domain: cleanup, then split scheme, netloc, fragment and query.  The
`ValueError` paths of `urlsplit` are captured separately by
`urlsplitRaises`. -/
def pyUrlsplit (url : PStr) : UrlStruct :=
  let url := cleanUrl url
  let sr := splitScheme url
  let nr := splitNetloc sr.2
  let fr := splitOnceChar '#' nr.2
  let qr := splitOnceChar '?' fr.1
  ⟨sr.1, nr.1, qr.1, [], qr.2, fr.2⟩

/-- Model of `urllib.parse.urlparse`: `urlsplit` plus the params split
on the path. -/
def pyUrlparse (url : PStr) : UrlStruct :=
  let u := pyUrlsplit url
  let pr := splitparams u.path
  { u with path := pr.1, params := pr.2 }

/-! #### The `ValueError` paths of `urlsplit`

`urlsplit` raises `ValueError` for a netloc with an unbalanced square
bracket (`Invalid IPv6 URL`), and for a bracketed host that is neither
a valid IPv6 address (`ipaddress.ip_address`, scope id included; an
IPv4 address in brackets also raises) nor an IPvFuture address
(`v[a-fA-F0-9]+\..+`); both are modelled below.  Its remaining raise,
`_checknetloc`'s NFKC rejection, fires only on non-ASCII netlocs and is
outside the ASCII fragment: every theorem here that quantifies over URL
strings or hrefs carries an explicit ASCII hypothesis. -/

/-- One octet of a dotted-quad IPv4 address (`_parse_octet`): one to
three ASCII decimal digits, no leading zero, value at most 255. -/
def validOctet (o : PStr) : Bool :=
  !o.isEmpty && o.all isDigitChar && o.length ≤ 3 &&
    (o = pstr "0" || o.take 1 ≠ ['0']) && decValue o ≤ 255

/-- Textual IPv4 address: exactly four valid octets. -/
def isValidIPv4 (s : PStr) : Bool :=
  let parts := splitOnChar '.' s
  parts.length = 4 && parts.all validOctet

/-- One hextet of an IPv6 address (`_parse_hextet`): one to four
hexadecimal digits. -/
def validHextet (h : PStr) : Bool :=
  !h.isEmpty && h.all isHexDigitChar && h.length ≤ 4

/-- The shape check of `IPv6Address._ip_int_from_string` on the
`:`-split parts (after any embedded IPv4 tail is replaced by two
hextets): at most nine parts, at most one `::` gap, a leading or
trailing empty part only as half of `::`, at least one hextet skipped
by the gap (or exactly eight parts with no gap), and every remaining
part a valid hextet. -/
def ipv6PartsOK (parts : List PStr) : Bool :=
  parts.length ≤ 9 &&
  (let middle := (parts.drop 1).dropLast
   let headEmpty := (parts.head?.getD [' ']).isEmpty
   let lastEmpty := ((parts.getLast?).getD [' ']).isEmpty
   match middle.findIdx? (fun p => p.isEmpty) with
   | none =>
     parts.length = 8 && parts.all validHextet
   | some i =>
     ((middle.drop (i + 1)).all (fun p => !p.isEmpty)) &&
     (let skip := i + 1
      let hi := if headEmpty then skip - 1 else skip
      let lo0 := parts.length - skip - 1
      let lo := if lastEmpty then lo0 - 1 else lo0
      (!headEmpty || skip = 1) && (!lastEmpty || lo0 = 1) &&
      hi + lo ≤ 7 &&
      (parts.take hi).all validHextet &&
      (parts.drop (parts.length - lo)).all validHextet))

/-- Textual IPv6 address as accepted by `ipaddress.IPv6Address`:
optional nonempty `%` scope id, at least three `:`-split parts, an
optional embedded IPv4 tail, and the part-shape check. -/
def isValidIPv6 (s : PStr) : Bool :=
  if s.contains '/' then false
  else
    match breakAtChar '%' s with
    | some (addr, scope) =>
      !scope.isEmpty && !scope.contains '%' && isValidIPv6NoScope addr
    | none => isValidIPv6NoScope s
where
  isValidIPv6NoScope (a : PStr) : Bool :=
    let parts0 := splitOnChar ':' a
    if parts0.length < 3 then false
    else
      let lastP := (parts0.getLast?).getD []
      if lastP.contains '.' then
        isValidIPv4 lastP && ipv6PartsOK (parts0.dropLast ++ [pstr "0", pstr "0"])
      else ipv6PartsOK parts0

/-- `_check_bracketed_host`: a host in brackets must be an IPvFuture
address (`v`, hex digits, a dot, a nonempty rest) or a valid IPv6
address; anything else, IPv4 addresses included, raises. -/
def validBracketedHost (h : PStr) : Bool :=
  match h with
  | 'v' :: rest =>
    let w := rest.takeWhile isHexDigitChar
    !w.isEmpty && (rest.drop w.length).take 1 = ['.'] &&
      !((rest.drop w.length).drop 1).isEmpty
  | _ => isValidIPv6 h

/-- The netloc `urlsplit` computes for a URL (cleanup, scheme split,
netloc split). -/
def netlocOfUrl (url : PStr) : PStr :=
  (splitNetloc (splitScheme (cleanUrl url)).2).1

/-- `netloc.partition('[')[2].partition(']')[0]`: the text between the
first `[` and the following `]`. -/
def bracketedHostOf (n : PStr) : PStr :=
  (splitOnceChar ']' (splitOnceChar '[' n).2).1

/-- The `ValueError` condition of `urllib.parse.urlsplit` on ASCII
input: an unbalanced square bracket in the netloc, or a bracketed host
that fails `_check_bracketed_host`. -/
def urlsplitRaises (url : PStr) : Bool :=
  let n := netlocOfUrl url
  (n.contains '[' && !n.contains ']') || (n.contains ']' && !n.contains '[') ||
    (n.contains '[' && n.contains ']' && !validBracketedHost (bracketedHostOf n))

/-- The `hostname` accessor of a parse result: the part of the netloc
after the last `@` and before the first `:`, lower-cased; `None` when
empty. -/
def UrlStruct.hostname (u : UrlStruct) : Option PStr :=
  let hostinfo := (u.netloc.reverse.takeWhile (fun c => c ≠ '@')).reverse
  let h := hostinfo.takeWhile (fun c => c ≠ ':')
  if h.isEmpty then none else some (h.map Char.toLower)

/-! ### `extract_gallery_id` (src/main.py lines 11-44) -/

/-- The parse result `extract_gallery_id` dispatches on when neither
parse raises: the input is re-parsed with an `http://` prefix when the
first parse found no scheme. -/
def effStruct (urlstr : PStr) : UrlStruct :=
  let u := pyUrlparse urlstr
  if u.scheme = [] then pyUrlparse (pstr "http://" ++ urlstr) else u

/-- The parsing step of `extract_gallery_id`, `ValueError` included:
`urlparse(urlstr)`, re-parsed as `urlparse(f"http://{urlstr}")` when
the first parse found no scheme; either call can raise. -/
def effParse (urlstr : PStr) : Except PyError UrlStruct :=
  if urlsplitRaises urlstr then .error .valueError
  else
    let u := pyUrlparse urlstr
    if u.scheme = [] then
      if urlsplitRaises (pstr "http://" ++ urlstr) then .error .valueError
      else .ok (pyUrlparse (pstr "http://" ++ urlstr))
    else .ok u

/-- The domain check of `extract_gallery_id`. -/
def hostOK (u : UrlStruct) : Bool :=
  u.hostname = some (pstr "www.imagefap.com") || u.hostname = some (pstr "imagefap.com")

/-- `path.split("/")` followed by `path.pop(0)`. -/
def segsOf (u : UrlStruct) : List PStr := (splitOnChar '/' u.path).tail

/-- The scan of `&`-split query parameters for the first one beginning
with `gid=`. -/
def firstGidParam (u : UrlStruct) : Option PStr :=
  (splitOnChar '&' u.query).find? (fun q => q.take 4 = pstr "gid=")

/-- `extract_gallery_id(urlstr)`: parse (re-parse with `http://` when
scheme-less), check the host, then dispatch on the first path segment;
`gallery`/`pictures` return the second segment, `photo`/`gallery.php`
the value of the first `gid=` query parameter.  Missing list indices
raise `IndexError`. -/
def extract_gallery_id (urlstr : PStr) : Except PyError PStr :=
  match effParse urlstr with
  | .error e => .error e
  | .ok u =>
    if !hostOK u then .error .invalidDomainError
    else
      let segs := segsOf u
      match segs.head? with
      | none => .error .indexError
      | some s0 =>
        if s0 = pstr "gallery" || s0 = pstr "pictures" then
          match segs.get? 1 with
          | none => .error .indexError
          | some s1 => .ok s1
        else if s0 = pstr "photo" || s0 = pstr "gallery.php" then
          match firstGidParam u with
          | some q => .ok (q.drop 4)
          | none => .error .unrecognizedURLFormatError
        else .error .unrecognizedURLFormatError









/-! ### `get_gallery_source` (src/main.py lines 47-57)

The fetched-and-parsed gallery document is abstract: `fetch` stands for
`BeautifulSoup(requests.get(url).content)`.  The global
`cached_source_code` slot is threaded explicitly, and the number of
network fetches the call performs is returned alongside. -/

/-- An anchor element of the parsed document: `elem.get("href")`. -/
structure Anchor where
  href : Option PStr
  deriving DecidableEq, Repr

/-- A parsed gallery document, as consumed by `get_image_URLs` via
`select('a')`: its anchor elements in document order. -/
structure Doc where
  anchors : List Anchor
  deriving DecidableEq, Repr

/-- The canonical request URL built by `get_gallery_source`. -/
def gallery_request_url (gallery_id : PStr) : PStr :=
  pstr "http://www.imagefap.com/gallery.php?gid=" ++ gallery_id

/-- `get_gallery_source(gallery_id)` with the global cache slot passed
in and out: returns the document, the new cache contents and the number
of fetches performed. -/
def get_gallery_source (fetch : PStr → Doc) (gallery_id : PStr) :
    Option Doc → Doc × Option Doc × Nat
  | some d => (d, some d, 0)
  | none =>
    let d := fetch (gallery_request_url gallery_id)
    (d, some d, 1)

/-! ### `get_image_URLs` (src/main.py lines 70-104) -/

/-- Domain prefixing of a relative href: `link.startswith("/")`. -/
def resolveHref (link : PStr) : PStr :=
  if link.take 1 = ['/'] then pstr "https://www.imagefap.com" ++ link else link

/-- The first loop of `get_image_URLs`: resolve each anchor's href and
append it unless already present.  An anchor without an href makes
`link.startswith` an attribute access on `None`. -/
def collectLinks : List Anchor → List PStr → Except PyError (List PStr)
  | [], links => .ok links
  | a :: rest, links =>
    match a.href with
    | none => .error .attributeError
    | some link =>
      let link := resolveHref link
      collectLinks rest (if links.contains link then links else links ++ [link])

/-- The regex check `re.match("\/photo\/(\w+)\/", path)`: the path
starts with `/photo/`, then one or more word characters, then `/`. -/
def photoPathMatch (p : PStr) : Bool :=
  if p.take 7 = pstr "/photo/" then
    let rest := p.drop 7
    let w := rest.takeWhile isWordChar
    !w.isEmpty && (rest.drop w.length).take 1 = ['/']
  else false

/-- The relevance filter of `get_image_URLs`: photo-page path shape and
substring containment of `gid=<gallery_id>` in the query. -/
def isRelevantLink (gallery_id link : PStr) : Bool :=
  let u := pyUrlparse link
  photoPathMatch u.path && containsSubC (pstr "gid=" ++ gallery_id) u.query

/-- `get_image_URLs(gallery_id)` applied to the gallery document that
`get_gallery_source` returned: dedup all anchor hrefs in document
order, then keep the relevant ones.  The second loop calls
`urlparse(link)` on every collected link, so a link on which `urlsplit`
raises aborts the whole call with that `ValueError`. -/
def get_image_URLs (gallery_id : PStr) (doc : Doc) : Except PyError (List PStr) :=
  match collectLinks doc.anchors [] with
  | .error e => .error e
  | .ok links =>
    if links.any urlsplitRaises then .error .valueError
    else .ok (links.filter (isRelevantLink gallery_id))

/-- All resolved hrefs of a list of anchors in document order,
duplicates included (the raw sequence the dedup loop consumes). -/
def resolvedHrefs (elems : List Anchor) : List PStr :=
  (elems.filterMap Anchor.href).map resolveHref

/-- Specification-level first-occurrence deduplication: keep an element
iff it has not been seen before, in order of appearance. -/
def dedupFirstAux (seen : List PStr) : List PStr → List PStr
  | [] => []
  | x :: xs =>
    if x ∈ seen then dedupFirstAux seen xs else x :: dedupFirstAux (x :: seen) xs

/-- First-occurrence deduplication of a list: each distinct element
appears exactly once, at the position of its first occurrence. -/
def dedupFirst (l : List PStr) : List PStr := dedupFirstAux [] l




/-! ### `download_image` (src/main.py lines 106-129)

`BeautifulSoup(requests.get(image_url).content).select("#mainPhoto")`
is abstracted as `select`, and the payload fetch
`requests.get(image_src_url).content` as `fetchBytes` (applied to the
`src` attribute value, possibly absent).  The side effects the call
performs are collected in a trace. -/

/-- A `#mainPhoto` element: `title` and `src` attributes. -/
structure PhotoElem where
  title : Option PStr
  src : Option PStr
  deriving DecidableEq, Repr

/-- Python f-string rendering of an attribute value (`None` when
absent). -/
def pyOptStr : Option PStr → PStr
  | some s => s
  | none => pstr "None"

/-- The observable side effects of one `download_image` call. -/
structure DownloadTrace where
  warnings : Nat
  dirsCreated : List PStr
  payloadFetches : List (Option PStr)
  filesWritten : List (PStr × List Nat)
  deriving DecidableEq, Repr

/-- `download_image(image_url, dl_path)`: select the `#mainPhoto`
elements; none aborts with `MissingPhotoError` before any directory
creation, payload fetch or write; otherwise the first element's title
names the written file and its src is fetched for the payload, with a
warning when more than one element matched. -/
def download_image (select : PStr → List PhotoElem)
    (fetchBytes : Option PStr → List Nat) (image_url dl_path : PStr) :
    Except PyError Unit × DownloadTrace :=
  let elems := select image_url
  match elems with
  | [] => (.error .missingPhotoError, ⟨0, [], [], []⟩)
  | elem :: rest =>
    let warnings := if rest.isEmpty then 0 else 1
    let image_data := fetchBytes elem.src
    (.ok (),
     ⟨warnings, [dl_path], [elem.src],
      [(dl_path ++ pstr "/" ++ pyOptStr elem.title, image_data)]⟩)



/-! ### Process state for the purity claim -/

/-- The only module-level mutable state of src/main.py: the
`cached_source_code` slot. -/
structure ProcState where
  cached_source_code : Option Doc

/-- `extract_gallery_id` as it runs inside the process: the call reads
no global and performs no assignment, so the state passes through
untouched and the result is computed from the URL alone. -/
def extract_gallery_id_run (s : ProcState) (urlstr : PStr) :
    (Except PyError PStr) × ProcState :=
  (extract_gallery_id urlstr, s)

/-- The value of the `gid` query parameter of a link: the first
`&`-delimited parameter of the parsed query beginning with `gid=`,
without that prefix. -/
def gidParamValue (link : PStr) : Option PStr :=
  (firstGidParam (pyUrlparse link)).map (fun q => q.drop 4)

/-! ## Theorems -/

/-! ### Generic lemmas about the string primitives -/

/-- A word character differs from any non-word character. -/
theorem wordChar_ne_bad (d : Char) {c : Char} (hc : isWordChar c = true)
    (hd : isWordChar d = false) : c ≠ d := by
  intro e
  rw [e, hd] at hc
  exact Bool.noConfusion hc

/-- Word characters are not among the removed unsafe URL bytes. -/
theorem wordChar_not_unsafe {c : Char} (h : isWordChar c = true) :
    isUnsafeUrlByte c = false := by
  have h1 : c ≠ '\t' := wordChar_ne_bad '\t' h (by decide)
  have h2 : c ≠ '\r' := wordChar_ne_bad '\r' h (by decide)
  have h3 : c ≠ '\n' := wordChar_ne_bad '\n' h (by decide)
  simp [isUnsafeUrlByte, h1, h2, h3]

/-- A character whose class test fails is not in a list all of whose
members pass it. -/
theorem all_imp_not_mem {q : Char → Bool} {l : PStr} (h : l.all q = true)
    {d : Char} (hd : q d = false) : d ∉ l := by
  intro hm
  have := List.all_eq_true.mp h d hm
  rw [hd] at this
  exact Bool.noConfusion this

theorem breakAtChar_not_mem (t : Char) : ∀ l : PStr, t ∉ l → breakAtChar t l = none := by
  intro l
  induction l with
  | nil => intro _; rfl
  | cons c cs ih =>
    intro h
    have hct : ¬(c = t) := fun e => h (e ▸ List.mem_cons_self c cs)
    have h' : t ∉ cs := fun hm => h (List.mem_cons_of_mem c hm)
    simp [breakAtChar, hct, ih h']

theorem breakAtChar_append_sep (t : Char) : ∀ a b : PStr, t ∉ a →
    breakAtChar t (a ++ t :: b) = some (a, b) := by
  intro a
  induction a with
  | nil => intro b _; simp [breakAtChar]
  | cons c cs ih =>
    intro b h
    have hct : ¬(c = t) := fun e => h (e ▸ List.mem_cons_self c cs)
    have h' : t ∉ cs := fun hm => h (List.mem_cons_of_mem c hm)
    simp [breakAtChar, hct, ih b h']

theorem splitOnChar_ne_nil (t : Char) (l : PStr) : splitOnChar t l ≠ [] := by
  cases l with
  | nil => simp [splitOnChar]
  | cons c cs =>
    rcases h : splitOnChar t cs with _ | ⟨s, ss⟩
    · simp [splitOnChar, h]
    · simp only [splitOnChar, h]
      split <;> simp

theorem splitOnChar_sep_cons (t : Char) (l : PStr) :
    splitOnChar t (t :: l) = [] :: splitOnChar t l := by
  rcases h : splitOnChar t l with _ | ⟨s, ss⟩
  · exact absurd h (splitOnChar_ne_nil t l)
  · simp [splitOnChar, h]

theorem splitOnChar_not_mem (t : Char) : ∀ l : PStr, t ∉ l → splitOnChar t l = [l] := by
  intro l
  induction l with
  | nil => intro _; rfl
  | cons c cs ih =>
    intro h
    have hct : ¬(c = t) := fun e => h (e ▸ List.mem_cons_self c cs)
    have h' : t ∉ cs := fun hm => h (List.mem_cons_of_mem c hm)
    simp [splitOnChar, ih h', hct]

theorem splitOnChar_append (t : Char) : ∀ a b : PStr, t ∉ a →
    splitOnChar t (a ++ t :: b) = a :: splitOnChar t b := by
  intro a
  induction a with
  | nil => intro b _; exact splitOnChar_sep_cons t b
  | cons c cs ih =>
    intro b h
    have hct : ¬(c = t) := fun e => h (e ▸ List.mem_cons_self c cs)
    have h' : t ∉ cs := fun hm => h (List.mem_cons_of_mem c hm)
    rw [List.cons_append]
    rcases hs : splitOnChar t (cs ++ t :: b) with _ | ⟨s, ss⟩
    · exact absurd hs (splitOnChar_ne_nil t _)
    · rw [ih b h'] at hs
      cases hs
      simp [splitOnChar, ih b h', hct]

theorem takeWhile_append_all (q : Char → Bool) : ∀ a b : PStr,
    (∀ c ∈ a, q c = true) → (a ++ b).takeWhile q = a ++ b.takeWhile q := by
  intro a
  induction a with
  | nil => intro b _; rfl
  | cons c cs ih =>
    intro b h
    have hc : q c = true := h c (List.mem_cons_self c cs)
    simp only [List.cons_append, List.takeWhile_cons, hc, if_true]
    rw [ih b (fun x hx => h x (List.mem_cons_of_mem c hx))]

theorem dropWhile_append_all (q : Char → Bool) : ∀ a b : PStr,
    (∀ c ∈ a, q c = true) → (a ++ b).dropWhile q = b.dropWhile q := by
  intro a
  induction a with
  | nil => intro b _; rfl
  | cons c cs ih =>
    intro b h
    have hc : q c = true := h c (List.mem_cons_self c cs)
    simp only [List.cons_append, List.dropWhile_cons, hc, if_true]
    exact ih b (fun x hx => h x (List.mem_cons_of_mem c hx))

theorem clean_of_append {x y : PStr} (hx : ∀ c ∈ x, isUnsafeUrlByte c = false)
    (hy : ∀ c ∈ y, isUnsafeUrlByte c = false) :
    ∀ c ∈ x ++ y, isUnsafeUrlByte c = false := by
  intro c hc
  rcases List.mem_append.mp hc with h | h
  · exact hx c h
  · exact hy c h

theorem clean_of_cons {d : Char} {y : PStr} (hd : isUnsafeUrlByte d = false)
    (hy : ∀ c ∈ y, isUnsafeUrlByte c = false) :
    ∀ c ∈ d :: y, isUnsafeUrlByte c = false := by
  intro c hc
  rcases List.mem_cons.mp hc with rfl | h
  · exact hd
  · exact hy c h

theorem clean_of_wordAll {x : PStr} (h : x.all isWordChar = true) :
    ∀ c ∈ x, isUnsafeUrlByte c = false :=
  fun c hc => wordChar_not_unsafe (List.all_eq_true.mp h c hc)

theorem not_mem_append_of {d : Char} {x y : PStr} (hx : d ∉ x) (hy : d ∉ y) :
    d ∉ x ++ y := by
  simp [List.mem_append, hx, hy]

theorem not_mem_cons_of {d e : Char} {y : PStr} (hd : d ≠ e) (hy : d ∉ y) :
    d ∉ e :: y := by
  simp [hd, hy]

/-! ### Evaluation of the parser on imagefap URLs with a symbolic tail -/

/-- The `urlsplit` cleanup leaves `https://www.imagefap.com/<t>`
unchanged when the tail is free of the removed unsafe bytes. -/
theorem cleanUrl_imagefap (t : PStr) (hclean : ∀ c ∈ t, isUnsafeUrlByte c = false) :
    cleanUrl (pstr "https://www.imagefap.com/" ++ t) =
      pstr "https://www.imagefap.com/" ++ t := by
  have ht : t.filter (fun c => !isUnsafeUrlByte c) = t :=
    List.filter_eq_self.mpr (fun c hc => by rw [hclean c hc]; rfl)
  have hlit : (pstr "https://www.imagefap.com/").filter (fun c => !isUnsafeUrlByte c) =
      pstr "https://www.imagefap.com/" := by decide
  show (List.dropWhile isC0orSpace (pstr "https://www.imagefap.com/" ++ t)).filter
      (fun c => !isUnsafeUrlByte c) = pstr "https://www.imagefap.com/" ++ t
  rw [show List.dropWhile isC0orSpace (pstr "https://www.imagefap.com/" ++ t) =
        pstr "https://www.imagefap.com/" ++ t from rfl,
      List.filter_append, ht, hlit]

/-- Scheme recognition on `https://www.imagefap.com/<t>`. -/
theorem splitScheme_imagefap (t : PStr) :
    splitScheme (pstr "https://www.imagefap.com/" ++ t) =
      (pstr "https", pstr "//www.imagefap.com/" ++ t) := by
  have hbreak : breakAtChar ':' (pstr "https://www.imagefap.com/" ++ t) =
      some (pstr "https", pstr "//www.imagefap.com/" ++ t) := by
    rw [show pstr "https://www.imagefap.com/" ++ t =
      pstr "https" ++ ':' :: (pstr "//www.imagefap.com/" ++ t) from rfl]
    exact breakAtChar_append_sep ':' _ _ (by decide)
  unfold splitScheme
  rw [hbreak]
  rfl

/-- Netloc recognition on `//www.imagefap.com/<t>`. -/
theorem splitNetloc_imagefap (t : PStr) :
    splitNetloc (pstr "//www.imagefap.com/" ++ t) =
      (pstr "www.imagefap.com", '/' :: t) := by
  unfold splitNetloc
  rw [if_pos (show (pstr "//www.imagefap.com/" ++ t).take 2 = pstr "//" from rfl),
      show (pstr "//www.imagefap.com/" ++ t).drop 2 =
        pstr "www.imagefap.com" ++ '/' :: t from rfl,
      takeWhile_append_all (fun c => !(c = '/' || c = '?' || c = '#'))
        (pstr "www.imagefap.com") ('/' :: t) (by decide),
      dropWhile_append_all (fun c => !(c = '/' || c = '?' || c = '#'))
        (pstr "www.imagefap.com") ('/' :: t) (by decide)]
  rfl

/-- `urlsplit` on `https://www.imagefap.com/<t>` for a tail free of the
removed unsafe bytes: scheme `https`, netloc `www.imagefap.com`, and
fragment/query split off the remaining path `/<t>`. -/
theorem pyUrlsplit_imagefap (t : PStr) (hclean : ∀ c ∈ t, isUnsafeUrlByte c = false) :
    pyUrlsplit (pstr "https://www.imagefap.com/" ++ t) =
      ⟨pstr "https", pstr "www.imagefap.com",
       (splitOnceChar '?' (splitOnceChar '#' ('/' :: t)).1).1, [],
       (splitOnceChar '?' (splitOnceChar '#' ('/' :: t)).1).2,
       (splitOnceChar '#' ('/' :: t)).2⟩ := by
  simp only [pyUrlsplit]
  rw [cleanUrl_imagefap t hclean]
  simp only [splitScheme_imagefap, splitNetloc_imagefap]

/-- `urlsplit` does not raise on `https://www.imagefap.com/<t>`: the
netloc is `www.imagefap.com`, which carries no bracket. -/
theorem urlsplitRaises_imagefap (t : PStr) (hclean : ∀ c ∈ t, isUnsafeUrlByte c = false) :
    urlsplitRaises (pstr "https://www.imagefap.com/" ++ t) = false := by
  unfold urlsplitRaises netlocOfUrl
  rw [cleanUrl_imagefap t hclean]
  simp only [splitScheme_imagefap, splitNetloc_imagefap]
  decide

/-- A successful `breakAtChar` decomposes its input around the first
occurrence of the separator. -/
theorem breakAtChar_eq_append (t : Char) : ∀ {l a b : PStr},
    breakAtChar t l = some (a, b) → l = a ++ t :: b := by
  intro l
  induction l with
  | nil => intro a b h; exact absurd h (by simp [breakAtChar])
  | cons c cs ih =>
    intro a b h
    by_cases hc : c = t
    · subst hc
      simp only [breakAtChar, eq_self_iff_true, if_true, Option.some.injEq,
        Prod.mk.injEq] at h
      obtain ⟨rfl, rfl⟩ := h
      rfl
    · simp only [breakAtChar, if_neg hc, Option.map_eq_some'] at h
      obtain ⟨⟨p1, p2⟩, hbc, hfb⟩ := h
      injection hfb with h1 h2
      subst h1
      subst h2
      rw [List.cons_append, ih hbc]

/-- The cleanup keeps a sublist of the input. -/
theorem cleanUrl_sublist (url : PStr) : (cleanUrl url).Sublist url :=
  (List.filter_sublist _).trans (List.dropWhile_sublist isC0orSpace)

/-- The rest after the scheme split is a sublist of the input. -/
theorem splitScheme_snd_sublist (url : PStr) : (splitScheme url).2.Sublist url := by
  cases hbc : breakAtChar ':' url with
  | none =>
    have hv : (splitScheme url).2 = url := by unfold splitScheme; rw [hbc]
    rw [hv]
  | some p =>
    obtain ⟨before, after⟩ := p
    cases before with
    | nil =>
      have hv : (splitScheme url).2 = url := by unfold splitScheme; rw [hbc]
      rw [hv]
    | cons c cs =>
      by_cases hcond : (c.isAlpha && (c :: cs).all isSchemeChar) = true
      · have hv : (splitScheme url).2 = after := by
          unfold splitScheme
          rw [hbc]
          show (if (c.isAlpha && (c :: cs).all isSchemeChar) = true
              then ((c :: cs).map Char.toLower, after) else ([], url)).2 = after
          rw [if_pos hcond]
        rw [hv, breakAtChar_eq_append ':' hbc]
        exact (List.sublist_cons_self ':' after).trans
          (List.sublist_append_right (c :: cs) (':' :: after))
      · have hv : (splitScheme url).2 = url := by
          unfold splitScheme
          rw [hbc]
          show (if (c.isAlpha && (c :: cs).all isSchemeChar) = true
              then ((c :: cs).map Char.toLower, after) else ([], url)).2 = url
          rw [if_neg hcond]
        rw [hv]

/-- The netloc is a sublist of the input of the netloc split. -/
theorem splitNetloc_fst_sublist (url : PStr) : (splitNetloc url).1.Sublist url := by
  unfold splitNetloc
  by_cases h : url.take 2 = pstr "//"
  · rw [if_pos h]
    exact (List.takeWhile_sublist _).trans (List.drop_sublist 2 url)
  · rw [if_neg h]
    exact List.nil_sublist url

/-- A URL without square brackets is outside every `ValueError` path
of `urlsplit`. -/
theorem urlsplitRaises_eq_false_of_no_brackets (s : PStr)
    (h1 : '[' ∉ s) (h2 : ']' ∉ s) : urlsplitRaises s = false := by
  have hsub : (netlocOfUrl s).Sublist s :=
    ((splitNetloc_fst_sublist _).trans (splitScheme_snd_sublist _)).trans (cleanUrl_sublist s)
  have hc1 : (netlocOfUrl s).contains '[' = false := by
    simpa using fun hm => h1 (hsub.subset hm)
  have hc2 : (netlocOfUrl s).contains ']' = false := by
    simpa using fun hm => h2 (hsub.subset hm)
  unfold urlsplitRaises
  dsimp only
  rw [hc1, hc2]
  rfl

/-- On bracket-free input, the parsing step of `extract_gallery_id`
returns the parse value `effStruct` computes. -/
theorem effParse_eq_ok_of_no_brackets (s : PStr)
    (h1 : '[' ∉ s) (h2 : ']' ∉ s) : effParse s = .ok (effStruct s) := by
  have hr1 := urlsplitRaises_eq_false_of_no_brackets s h1 h2
  have hr2 := urlsplitRaises_eq_false_of_no_brackets (pstr "http://" ++ s)
    (not_mem_append_of (by decide) h1) (not_mem_append_of (by decide) h2)
  unfold effParse effStruct
  rw [hr1, hr2]
  by_cases hs : (pyUrlparse s).scheme = [] <;> simp [hs]

/-- When the parsing step succeeds, `extract_gallery_id` is its
dispatch on the parse result. -/
theorem extract_eq_of_effParse_ok {urlstr : PStr} {u : UrlStruct}
    (h : effParse urlstr = .ok u) :
    extract_gallery_id urlstr =
      (if !hostOK u then .error .invalidDomainError
       else
         match (segsOf u).head? with
         | none => .error .indexError
         | some s0 =>
           if s0 = pstr "gallery" || s0 = pstr "pictures" then
             match (segsOf u).get? 1 with
             | none => .error .indexError
             | some s1 => .ok s1
           else if s0 = pstr "photo" || s0 = pstr "gallery.php" then
             match firstGidParam u with
             | some q => .ok (q.drop 4)
             | none => .error .unrecognizedURLFormatError
           else .error .unrecognizedURLFormatError) := by
  unfold extract_gallery_id
  rw [h]

/-- The `hostname` accessor only reads the netloc; on netloc
`www.imagefap.com` it returns it. -/
theorem hostname_imagefap (s p pr q f : PStr) :
    UrlStruct.hostname ⟨s, pstr "www.imagefap.com", p, pr, q, f⟩ =
      some (pstr "www.imagefap.com") := rfl

/-- The domain check accepts any parse result with netloc
`www.imagefap.com`. -/
theorem hostOK_imagefap (s p pr q f : PStr) :
    hostOK ⟨s, pstr "www.imagefap.com", p, pr, q, f⟩ = true := rfl

/-- When the fragment and query separators and the params separator do
not occur, `urlparse` on `https://www.imagefap.com/<t>` keeps the whole
`/<t>` as path, with empty query. -/
theorem pyUrlparse_imagefap_plain (t : PStr)
    (hclean : ∀ c ∈ t, isUnsafeUrlByte c = false)
    (hhash : '#' ∉ t) (hq : '?' ∉ t) (hsemi : ';' ∉ t) :
    pyUrlparse (pstr "https://www.imagefap.com/" ++ t) =
      ⟨pstr "https", pstr "www.imagefap.com", '/' :: t, [], [], []⟩ := by
  have hfr : splitOnceChar '#' ('/' :: t) = ('/' :: t, []) := by
    unfold splitOnceChar
    rw [breakAtChar_not_mem '#' _ (by simp [hhash])]
    rfl
  have hqr : splitOnceChar '?' ('/' :: t) = ('/' :: t, []) := by
    unfold splitOnceChar
    rw [breakAtChar_not_mem '?' _ (by simp [hq])]
    rfl
  have hcontains : ('/' :: t).contains ';' = false := by
    simp [List.contains, hsemi]
  unfold pyUrlparse
  rw [pyUrlsplit_imagefap t hclean]
  simp only [hfr, hqr]
  unfold splitparams
  rw [hcontains]
  rfl

/-- When the tail is `<a>?<b>` with no fragment separator anywhere, no
query separator in `a` and no params separator in `a`, `urlparse` on
`https://www.imagefap.com/<a>?<b>` has path `/<a>` and query `<b>`. -/
theorem pyUrlparse_imagefap_query (a b : PStr)
    (hclean : ∀ c ∈ a ++ '?' :: b, isUnsafeUrlByte c = false)
    (hhash : '#' ∉ a ++ '?' :: b) (hq : '?' ∉ a) (hsemi : ';' ∉ a) :
    pyUrlparse (pstr "https://www.imagefap.com/" ++ (a ++ '?' :: b)) =
      ⟨pstr "https", pstr "www.imagefap.com", '/' :: a, [], b, []⟩ := by
  have hfr : splitOnceChar '#' ('/' :: (a ++ '?' :: b)) = ('/' :: (a ++ '?' :: b), []) := by
    unfold splitOnceChar
    rw [breakAtChar_not_mem '#' _ (by simp [hhash])]
    rfl
  have hqr : splitOnceChar '?' ('/' :: (a ++ '?' :: b)) = ('/' :: a, b) := by
    unfold splitOnceChar
    rw [show ('/' :: (a ++ '?' :: b)) = ('/' :: a) ++ '?' :: b from rfl]
    rw [breakAtChar_append_sep '?' _ _ (by simp [hq])]
    rfl
  have hcontains : ('/' :: a).contains ';' = false := by
    simp [List.contains, hsemi]
  unfold pyUrlparse
  rw [pyUrlsplit_imagefap _ hclean]
  simp only [hfr, hqr]
  unfold splitparams
  rw [hcontains]
  rfl

/-! ### The four URL shapes of the identity resolver -/


/-- The `gallery/<id>` shape resolves to `<id>`. -/
theorem extract_shape_gallery (id : PStr) (hid : id.all isWordChar = true) :
    extract_gallery_id (pstr "https://www.imagefap.com/gallery/" ++ id) = .ok id := by
  have hlit : ∀ c ∈ pstr "gallery/", isUnsafeUrlByte c = false := by decide
  have hclean : ∀ c ∈ pstr "gallery/" ++ id, isUnsafeUrlByte c = false :=
    clean_of_append hlit (clean_of_wordAll hid)
  have hhash : '#' ∉ pstr "gallery/" ++ id :=
    not_mem_append_of (by decide) (all_imp_not_mem hid (by decide))
  have hq : '?' ∉ pstr "gallery/" ++ id :=
    not_mem_append_of (by decide) (all_imp_not_mem hid (by decide))
  have hsemi : ';' ∉ pstr "gallery/" ++ id :=
    not_mem_append_of (by decide) (all_imp_not_mem hid (by decide))
  have hparse := pyUrlparse_imagefap_plain (pstr "gallery/" ++ id) hclean hhash hq hsemi
  have heff : effParse (pstr "https://www.imagefap.com/" ++ (pstr "gallery/" ++ id)) =
      .ok ⟨pstr "https", pstr "www.imagefap.com", '/' :: (pstr "gallery/" ++ id), [], [], []⟩ := by
    unfold effParse
    rw [urlsplitRaises_imagefap _ hclean, hparse]
    rfl
  have hsegs : segsOf
      ⟨pstr "https", pstr "www.imagefap.com", '/' :: (pstr "gallery/" ++ id), [], [], []⟩ =
      [pstr "gallery", id] := by
    unfold segsOf
    show (splitOnChar '/' ('/' :: (pstr "gallery/" ++ id))).tail = _
    rw [splitOnChar_sep_cons,
        show pstr "gallery/" ++ id = pstr "gallery" ++ '/' :: id from rfl,
        splitOnChar_append '/' _ _ (by decide),
        splitOnChar_not_mem '/' id (all_imp_not_mem hid (by decide))]
    rfl
  rw [show pstr "https://www.imagefap.com/gallery/" ++ id =
      pstr "https://www.imagefap.com/" ++ (pstr "gallery/" ++ id) from rfl]
  rw [extract_eq_of_effParse_ok heff, hsegs]
  rfl

/-- The `pictures/<id>/<name>` shape resolves to `<id>` whatever the
trailing gallery name, provided the name carries no separator that
would cut the path before the identity. -/
theorem extract_shape_pictures (id name : PStr) (hid : id.all isWordChar = true)
    (hnc : ∀ c ∈ name, isUnsafeUrlByte c = false)
    (hnh : '#' ∉ name) (hnq : '?' ∉ name) (hns : ';' ∉ name) :
    extract_gallery_id (pstr "https://www.imagefap.com/pictures/" ++ id ++ '/' :: name) =
      .ok id := by
  have hidh : '#' ∉ id := all_imp_not_mem hid (by decide)
  have hidq : '?' ∉ id := all_imp_not_mem hid (by decide)
  have hids : ';' ∉ id := all_imp_not_mem hid (by decide)
  have hclean : ∀ c ∈ pstr "pictures/" ++ (id ++ '/' :: name), isUnsafeUrlByte c = false :=
    clean_of_append (by decide)
      (clean_of_append (clean_of_wordAll hid) (clean_of_cons (by decide) hnc))
  have hhash : '#' ∉ pstr "pictures/" ++ (id ++ '/' :: name) :=
    not_mem_append_of (by decide)
      (not_mem_append_of hidh (not_mem_cons_of (by decide) hnh))
  have hq : '?' ∉ pstr "pictures/" ++ (id ++ '/' :: name) :=
    not_mem_append_of (by decide)
      (not_mem_append_of hidq (not_mem_cons_of (by decide) hnq))
  have hsemi : ';' ∉ pstr "pictures/" ++ (id ++ '/' :: name) :=
    not_mem_append_of (by decide)
      (not_mem_append_of hids (not_mem_cons_of (by decide) hns))
  have hparse := pyUrlparse_imagefap_plain (pstr "pictures/" ++ (id ++ '/' :: name))
    hclean hhash hq hsemi
  have heff : effParse (pstr "https://www.imagefap.com/" ++
        (pstr "pictures/" ++ (id ++ '/' :: name))) =
      .ok ⟨pstr "https", pstr "www.imagefap.com",
       '/' :: (pstr "pictures/" ++ (id ++ '/' :: name)), [], [], []⟩ := by
    unfold effParse
    rw [urlsplitRaises_imagefap _ hclean, hparse]
    rfl
  have hsegs : segsOf ⟨pstr "https", pstr "www.imagefap.com",
        '/' :: (pstr "pictures/" ++ (id ++ '/' :: name)), [], [], []⟩ =
      pstr "pictures" :: id :: splitOnChar '/' name := by
    unfold segsOf
    show (splitOnChar '/' ('/' :: (pstr "pictures/" ++ (id ++ '/' :: name)))).tail = _
    rw [splitOnChar_sep_cons,
        show pstr "pictures/" ++ (id ++ '/' :: name) =
          pstr "pictures" ++ '/' :: (id ++ '/' :: name) from rfl,
        splitOnChar_append '/' _ _ (by decide),
        splitOnChar_append '/' id name (all_imp_not_mem hid (by decide))]
    rfl
  rw [show pstr "https://www.imagefap.com/pictures/" ++ id ++ '/' :: name =
      pstr "https://www.imagefap.com/" ++ (pstr "pictures/" ++ (id ++ '/' :: name)) from by
    simp only [List.append_assoc]
    rfl]
  rw [extract_eq_of_effParse_ok heff, hsegs]
  rfl

/-- The `gallery.php?gid=<id>` shape resolves to `<id>`. -/
theorem extract_shape_gallery_php (id : PStr) (hid : id.all isWordChar = true) :
    extract_gallery_id (pstr "https://www.imagefap.com/gallery.php?gid=" ++ id) = .ok id := by
  have hclean : ∀ c ∈ pstr "gallery.php" ++ '?' :: (pstr "gid=" ++ id),
      isUnsafeUrlByte c = false :=
    clean_of_append (by decide)
      (clean_of_cons (by decide) (clean_of_append (by decide) (clean_of_wordAll hid)))
  have hhash : '#' ∉ pstr "gallery.php" ++ '?' :: (pstr "gid=" ++ id) :=
    not_mem_append_of (by decide)
      (not_mem_cons_of (by decide)
        (not_mem_append_of (by decide) (all_imp_not_mem hid (by decide))))
  have hparse := pyUrlparse_imagefap_query (pstr "gallery.php") (pstr "gid=" ++ id)
    hclean hhash (by decide) (by decide)
  have heff : effParse (pstr "https://www.imagefap.com/" ++
        (pstr "gallery.php" ++ '?' :: (pstr "gid=" ++ id))) =
      .ok ⟨pstr "https", pstr "www.imagefap.com", '/' :: pstr "gallery.php", [],
       pstr "gid=" ++ id, []⟩ := by
    unfold effParse
    rw [urlsplitRaises_imagefap _ hclean, hparse]
    rfl
  have hfirst : firstGidParam ⟨pstr "https", pstr "www.imagefap.com",
        '/' :: pstr "gallery.php", [], pstr "gid=" ++ id, []⟩ =
      some (pstr "gid=" ++ id) := by
    unfold firstGidParam
    show (splitOnChar '&' (pstr "gid=" ++ id)).find? _ = _
    rw [splitOnChar_not_mem '&' _
      (not_mem_append_of (by decide) (all_imp_not_mem hid (by decide)))]
    exact List.find?_cons_of_pos [] rfl
  rw [show pstr "https://www.imagefap.com/gallery.php?gid=" ++ id =
      pstr "https://www.imagefap.com/" ++
        (pstr "gallery.php" ++ '?' :: (pstr "gid=" ++ id)) from rfl]
  rw [extract_eq_of_effParse_ok heff, hfirst]
  rfl

/-- The `photo/<token>/?pgid=&gid=<id>&page=0` shape resolves to
`<id>`: the first `gid=` parameter wins over `pgid=` and `page=0`. -/
theorem extract_shape_photo (id tok : PStr) (hid : id.all isWordChar = true)
    (htok : tok.all isWordChar = true) :
    extract_gallery_id (pstr "https://www.imagefap.com/photo/" ++ tok ++
      pstr "/?pgid=&gid=" ++ id ++ pstr "&page=0") = .ok id := by
  have hclean : ∀ c ∈ (pstr "photo/" ++ (tok ++ ['/'])) ++
      '?' :: (pstr "pgid=&gid=" ++ (id ++ pstr "&page=0")), isUnsafeUrlByte c = false :=
    clean_of_append
      (clean_of_append (by decide) (clean_of_append (clean_of_wordAll htok) (by decide)))
      (clean_of_cons (by decide)
        (clean_of_append (by decide)
          (clean_of_append (clean_of_wordAll hid) (by decide))))
  have hhash : '#' ∉ (pstr "photo/" ++ (tok ++ ['/'])) ++
      '?' :: (pstr "pgid=&gid=" ++ (id ++ pstr "&page=0")) :=
    not_mem_append_of
      (not_mem_append_of (by decide)
        (not_mem_append_of (all_imp_not_mem htok (by decide)) (by decide)))
      (not_mem_cons_of (by decide)
        (not_mem_append_of (by decide)
          (not_mem_append_of (all_imp_not_mem hid (by decide)) (by decide))))
  have hqa : '?' ∉ pstr "photo/" ++ (tok ++ ['/']) :=
    not_mem_append_of (by decide)
      (not_mem_append_of (all_imp_not_mem htok (by decide)) (by decide))
  have hsa : ';' ∉ pstr "photo/" ++ (tok ++ ['/']) :=
    not_mem_append_of (by decide)
      (not_mem_append_of (all_imp_not_mem htok (by decide)) (by decide))
  have hparse := pyUrlparse_imagefap_query (pstr "photo/" ++ (tok ++ ['/']))
    (pstr "pgid=&gid=" ++ (id ++ pstr "&page=0")) hclean hhash hqa hsa
  have heff : effParse (pstr "https://www.imagefap.com/" ++
        ((pstr "photo/" ++ (tok ++ ['/'])) ++
          '?' :: (pstr "pgid=&gid=" ++ (id ++ pstr "&page=0")))) =
      .ok ⟨pstr "https", pstr "www.imagefap.com",
       '/' :: (pstr "photo/" ++ (tok ++ ['/'])), [],
       pstr "pgid=&gid=" ++ (id ++ pstr "&page=0"), []⟩ := by
    unfold effParse
    rw [urlsplitRaises_imagefap _ hclean, hparse]
    rfl
  have hsegs : segsOf ⟨pstr "https", pstr "www.imagefap.com",
        '/' :: (pstr "photo/" ++ (tok ++ ['/'])), [],
        pstr "pgid=&gid=" ++ (id ++ pstr "&page=0"), []⟩ =
      [pstr "photo", tok, []] := by
    unfold segsOf
    show (splitOnChar '/' ('/' :: (pstr "photo/" ++ (tok ++ ['/'])))).tail = _
    rw [splitOnChar_sep_cons,
        show pstr "photo/" ++ (tok ++ ['/']) = pstr "photo" ++ '/' :: (tok ++ ['/']) from rfl,
        splitOnChar_append '/' _ _ (by decide),
        show tok ++ ['/'] = tok ++ '/' :: ([] : PStr) from rfl,
        splitOnChar_append '/' tok [] (all_imp_not_mem htok (by decide))]
    rfl
  have hfirst : firstGidParam ⟨pstr "https", pstr "www.imagefap.com",
        '/' :: (pstr "photo/" ++ (tok ++ ['/'])), [],
        pstr "pgid=&gid=" ++ (id ++ pstr "&page=0"), []⟩ =
      some (pstr "gid=" ++ id) := by
    unfold firstGidParam
    show (splitOnChar '&' (pstr "pgid=&gid=" ++ (id ++ pstr "&page=0"))).find? _ = _
    rw [show pstr "pgid=&gid=" ++ (id ++ pstr "&page=0") =
        pstr "pgid=" ++ '&' :: ((pstr "gid=" ++ id) ++ '&' :: pstr "page=0") from by
      simp only [List.append_assoc]
      rfl,
        splitOnChar_append '&' _ _ (by decide),
        splitOnChar_append '&' (pstr "gid=" ++ id) _
          (not_mem_append_of (by decide) (all_imp_not_mem hid (by decide))),
        splitOnChar_not_mem '&' (pstr "page=0") (by decide)]
    rw [List.find?_cons_of_neg _ (by decide)]
    exact List.find?_cons_of_pos _ rfl
  rw [show pstr "https://www.imagefap.com/photo/" ++ tok ++
        pstr "/?pgid=&gid=" ++ id ++ pstr "&page=0" =
      pstr "https://www.imagefap.com/" ++
        ((pstr "photo/" ++ (tok ++ ['/'])) ++
          '?' :: (pstr "pgid=&gid=" ++ (id ++ pstr "&page=0"))) from by
    simp only [List.append_assoc, List.singleton_append]
    rfl]
  rw [extract_eq_of_effParse_ok heff, hsegs, hfirst]
  show Except.ok ((pstr "gid=" ++ id).drop 4) = _
  rw [List.drop_left' (show (pstr "gid=").length = 4 from rfl)]

/-- When several `gid=` query parameters are present, the first one
encountered wins. -/
theorem extract_shape_first_gid_wins (id1 id2 : PStr)
    (h1 : id1.all isWordChar = true) (h2 : id2.all isWordChar = true) :
    extract_gallery_id (pstr "https://www.imagefap.com/gallery.php?gid=" ++ id1 ++
      pstr "&gid=" ++ id2) = .ok id1 := by
  have hclean : ∀ c ∈ pstr "gallery.php" ++
      '?' :: (pstr "gid=" ++ (id1 ++ '&' :: (pstr "gid=" ++ id2))),
      isUnsafeUrlByte c = false :=
    clean_of_append (by decide)
      (clean_of_cons (by decide)
        (clean_of_append (by decide)
          (clean_of_append (clean_of_wordAll h1)
            (clean_of_cons (by decide)
              (clean_of_append (by decide) (clean_of_wordAll h2))))))
  have hhash : '#' ∉ pstr "gallery.php" ++
      '?' :: (pstr "gid=" ++ (id1 ++ '&' :: (pstr "gid=" ++ id2))) :=
    not_mem_append_of (by decide)
      (not_mem_cons_of (by decide)
        (not_mem_append_of (by decide)
          (not_mem_append_of (all_imp_not_mem h1 (by decide))
            (not_mem_cons_of (by decide)
              (not_mem_append_of (by decide) (all_imp_not_mem h2 (by decide)))))))
  have hparse := pyUrlparse_imagefap_query (pstr "gallery.php")
    (pstr "gid=" ++ (id1 ++ '&' :: (pstr "gid=" ++ id2))) hclean hhash (by decide) (by decide)
  have heff : effParse (pstr "https://www.imagefap.com/" ++
        (pstr "gallery.php" ++ '?' :: (pstr "gid=" ++ (id1 ++ '&' :: (pstr "gid=" ++ id2))))) =
      .ok ⟨pstr "https", pstr "www.imagefap.com", '/' :: pstr "gallery.php", [],
       pstr "gid=" ++ (id1 ++ '&' :: (pstr "gid=" ++ id2)), []⟩ := by
    unfold effParse
    rw [urlsplitRaises_imagefap _ hclean, hparse]
    rfl
  have hfirst : firstGidParam ⟨pstr "https", pstr "www.imagefap.com",
        '/' :: pstr "gallery.php", [],
        pstr "gid=" ++ (id1 ++ '&' :: (pstr "gid=" ++ id2)), []⟩ =
      some (pstr "gid=" ++ id1) := by
    unfold firstGidParam
    show (splitOnChar '&' (pstr "gid=" ++ (id1 ++ '&' :: (pstr "gid=" ++ id2)))).find? _ = _
    rw [show pstr "gid=" ++ (id1 ++ '&' :: (pstr "gid=" ++ id2)) =
        (pstr "gid=" ++ id1) ++ '&' :: (pstr "gid=" ++ id2) from by
      simp only [List.append_assoc],
        splitOnChar_append '&' (pstr "gid=" ++ id1) _
          (not_mem_append_of (by decide) (all_imp_not_mem h1 (by decide))),
        splitOnChar_not_mem '&' (pstr "gid=" ++ id2)
          (not_mem_append_of (by decide) (all_imp_not_mem h2 (by decide)))]
    exact List.find?_cons_of_pos _ rfl
  rw [show pstr "https://www.imagefap.com/gallery.php?gid=" ++ id1 ++
        pstr "&gid=" ++ id2 =
      pstr "https://www.imagefap.com/" ++
        (pstr "gallery.php" ++ '?' :: (pstr "gid=" ++ (id1 ++ '&' :: (pstr "gid=" ++ id2)))) from by
    simp only [List.append_assoc]
    rfl]
  rw [extract_eq_of_effParse_ok heff, hfirst]
  show Except.ok ((pstr "gid=" ++ id1).drop 4) = _
  rw [List.drop_left' (show (pstr "gid=").length = 4 from rfl)]

/-- C1: each of the four known URL shapes resolves to the literal
identity it carries: `gallery/<id>` and `pictures/<id>/<name>` yield
the second path segment verbatim, `photo/<tok>/?pgid=&gid=<id>&page=0`
and `gallery.php?gid=<id>` yield the remainder of the first
`&`-delimited query parameter beginning with `gid=`, and with several
`gid=` parameters the first one wins.  Identities and photo tokens
range over nonempty-or-empty strings of word characters; the gallery
name only needs to avoid the separators that would cut the path before
the identity. -/
theorem c1_four_shapes_resolve :
    (∀ id : PStr, id.all isWordChar = true →
      extract_gallery_id (pstr "https://www.imagefap.com/gallery/" ++ id) = .ok id) ∧
    (∀ id name : PStr, id.all isWordChar = true →
      (∀ c ∈ name, isUnsafeUrlByte c = false) → '#' ∉ name → '?' ∉ name → ';' ∉ name →
      extract_gallery_id (pstr "https://www.imagefap.com/pictures/" ++ id ++ '/' :: name) =
        .ok id) ∧
    (∀ id tok : PStr, id.all isWordChar = true → tok.all isWordChar = true →
      extract_gallery_id (pstr "https://www.imagefap.com/photo/" ++ tok ++
        pstr "/?pgid=&gid=" ++ id ++ pstr "&page=0") = .ok id) ∧
    (∀ id : PStr, id.all isWordChar = true →
      extract_gallery_id (pstr "https://www.imagefap.com/gallery.php?gid=" ++ id) = .ok id) ∧
    (∀ id1 id2 : PStr, id1.all isWordChar = true → id2.all isWordChar = true →
      extract_gallery_id (pstr "https://www.imagefap.com/gallery.php?gid=" ++ id1 ++
        pstr "&gid=" ++ id2) = .ok id1) :=
  ⟨extract_shape_gallery,
   extract_shape_pictures,
   extract_shape_photo,
   extract_shape_gallery_php,
   extract_shape_first_gid_wins⟩

/-- Witness for C1 at the spec's concrete example URLs. -/
theorem c1_four_shapes_resolve_witness :
    extract_gallery_id (pstr "https://www.imagefap.com/gallery/" ++ pstr "12345678") =
      .ok (pstr "12345678") ∧
    extract_gallery_id (pstr "https://www.imagefap.com/pictures/" ++ pstr "12345678" ++
      '/' :: pstr "Name-Of-Gallery") = .ok (pstr "12345678") ∧
    extract_gallery_id (pstr "https://www.imagefap.com/photo/" ++ pstr "9876543210" ++
      pstr "/?pgid=&gid=" ++ pstr "12345678" ++ pstr "&page=0") = .ok (pstr "12345678") ∧
    extract_gallery_id (pstr "https://www.imagefap.com/gallery.php?gid=" ++ pstr "12345678") =
      .ok (pstr "12345678") ∧
    extract_gallery_id (pstr "https://www.imagefap.com/gallery.php?gid=" ++ pstr "111" ++
      pstr "&gid=" ++ pstr "222") = .ok (pstr "111") :=
  ⟨c1_four_shapes_resolve.1 (pstr "12345678") (by decide),
   c1_four_shapes_resolve.2.1 (pstr "12345678") (pstr "Name-Of-Gallery") (by decide)
     (by decide) (by decide) (by decide) (by decide),
   c1_four_shapes_resolve.2.2.1 (pstr "12345678") (pstr "9876543210") (by decide) (by decide),
   c1_four_shapes_resolve.2.2.2.1 (pstr "12345678") (by decide),
   c1_four_shapes_resolve.2.2.2.2 (pstr "111") (pstr "222") (by decide) (by decide)⟩

/-- C6 counterexample: `https://www.imagefap.com/gallery` has a valid
host and the known first segment `gallery`, so the claim says resolve
returns an identity; the code instead dies with an `IndexError` from
`path[1]` — a failure mode the claim says does not exist. -/
theorem c6_counterexample_missing_segment :
    extract_gallery_id (pstr "https://www.imagefap.com/gallery") = .error .indexError ∧
    hostOK (effStruct (pstr "https://www.imagefap.com/gallery")) = true ∧
    (segsOf (effStruct (pstr "https://www.imagefap.com/gallery"))).head? =
      some (pstr "gallery") ∧
    extract_gallery_id (pstr "https://www.imagefap.com/gallery") ≠
      .error .invalidDomainError ∧
    extract_gallery_id (pstr "https://www.imagefap.com/gallery") ≠
      .error .unrecognizedURLFormatError :=
  ⟨by decide, by decide, by decide, by decide, by decide⟩

/-- C6 amended: over ASCII inputs containing no square bracket (so
that neither bracket check nor the NFKC netloc check of `urlsplit` can
raise), resolve fails with `InvalidDomainError` iff the resolved host
is neither the canonical nor the bare domain; with `IndexError` iff the
host is valid but the path has no first segment, or the first segment
is `gallery`/`pictures` and there is no second segment; with
`UnrecognizedURLFormatError` iff the host is valid and the first
segment matches none of the four known values, or is
`photo`/`gallery.php` with no `gid=` parameter; and returns an identity
in exactly the remaining cases. -/
theorem c6_amended_failure_characterization (s : PStr)
    (hascii : ∀ c ∈ s, c.toNat ≤ 127) (hbr : '[' ∉ s ∧ ']' ∉ s) :
    (extract_gallery_id s = .error .invalidDomainError ↔
      hostOK (effStruct s) = false) ∧
    (extract_gallery_id s = .error .indexError ↔
      hostOK (effStruct s) = true ∧
        (segsOf (effStruct s) = [] ∨
         ∃ s0, (segsOf (effStruct s)).head? = some s0 ∧
           (s0 = pstr "gallery" ∨ s0 = pstr "pictures") ∧
           (segsOf (effStruct s)).get? 1 = none)) ∧
    (extract_gallery_id s = .error .unrecognizedURLFormatError ↔
      hostOK (effStruct s) = true ∧
        ∃ s0, (segsOf (effStruct s)).head? = some s0 ∧
          ((s0 ≠ pstr "gallery" ∧ s0 ≠ pstr "pictures" ∧ s0 ≠ pstr "photo" ∧
            s0 ≠ pstr "gallery.php") ∨
           ((s0 = pstr "photo" ∨ s0 = pstr "gallery.php") ∧
            firstGidParam (effStruct s) = none))) ∧
    ((∃ g, extract_gallery_id s = .ok g) ↔
      hostOK (effStruct s) = true ∧
        ∃ s0, (segsOf (effStruct s)).head? = some s0 ∧
          (((s0 = pstr "gallery" ∨ s0 = pstr "pictures") ∧
            (segsOf (effStruct s)).get? 1 ≠ none) ∨
           ((s0 = pstr "photo" ∨ s0 = pstr "gallery.php") ∧
            firstGidParam (effStruct s) ≠ none))) := by
  obtain ⟨h1, h2⟩ := hbr
  rw [extract_eq_of_effParse_ok (effParse_eq_ok_of_no_brackets s h1 h2)]
  cases hh : hostOK (effStruct s) with
  | false =>
    refine ⟨?_, ?_, ?_, ?_⟩ <;> simp [hh]
  | true =>
    cases hseg : (segsOf (effStruct s)).head? with
    | none =>
      have hnil : segsOf (effStruct s) = [] := by
        cases hc : segsOf (effStruct s) with
        | nil => rfl
        | cons x xs => rw [hc] at hseg; exact Option.noConfusion hseg
      refine ⟨?_, ?_, ?_, ?_⟩ <;> simp [hh, hseg, hnil]
    | some s0 =>
      have hne : segsOf (effStruct s) ≠ [] := by
        intro hc
        rw [hc] at hseg
        exact Option.noConfusion hseg
      by_cases hgp : s0 = pstr "gallery" ∨ s0 = pstr "pictures"
      · have hnp : ¬(s0 = pstr "photo" ∨ s0 = pstr "gallery.php") := by
          rcases hgp with rfl | rfl
          · decide
          · decide
        cases hget : (segsOf (effStruct s)).get? 1 with
        | none =>
          refine ⟨?_, ?_, ?_, ?_⟩ <;> simp [hh, hseg, hne, hgp, hnp, hget] <;>
            (rcases hgp with rfl | rfl <;> decide)
        | some s1 =>
          refine ⟨?_, ?_, ?_, ?_⟩ <;> simp [hh, hseg, hne, hgp, hnp, hget] <;>
            (rcases hgp with rfl | rfl <;> decide)
      · by_cases hpg : s0 = pstr "photo" ∨ s0 = pstr "gallery.php"
        · cases hfg : firstGidParam (effStruct s) with
          | none =>
            refine ⟨?_, ?_, ?_, ?_⟩ <;> simp [hh, hseg, hne, hgp, hpg, hfg]
          | some q =>
            refine ⟨?_, ?_, ?_, ?_⟩ <;> simp [hh, hseg, hne, hgp, hpg, hfg] <;>
              (rcases hpg with rfl | rfl <;> decide)
        · have h4 : s0 ≠ pstr "gallery" ∧ s0 ≠ pstr "pictures" ∧ s0 ≠ pstr "photo" ∧
              s0 ≠ pstr "gallery.php" := by
            push_neg at hgp hpg
            exact ⟨hgp.1, hgp.2, hpg.1, hpg.2⟩
          refine ⟨?_, ?_, ?_, ?_⟩ <;> simp [hh, hseg, hne, hgp, hpg, h4]

/-- Witness for the amended C6 at a concrete bracket-free URL. -/
theorem c6_amended_failure_characterization_witness :
    (extract_gallery_id (pstr "https://www.imagefap.com/unknown/1") =
        .error .invalidDomainError ↔
      hostOK (effStruct (pstr "https://www.imagefap.com/unknown/1")) = false) ∧
    (extract_gallery_id (pstr "https://www.imagefap.com/unknown/1") =
        .error .indexError ↔
      hostOK (effStruct (pstr "https://www.imagefap.com/unknown/1")) = true ∧
        (segsOf (effStruct (pstr "https://www.imagefap.com/unknown/1")) = [] ∨
         ∃ s0, (segsOf (effStruct (pstr "https://www.imagefap.com/unknown/1"))).head? =
             some s0 ∧
           (s0 = pstr "gallery" ∨ s0 = pstr "pictures") ∧
           (segsOf (effStruct (pstr "https://www.imagefap.com/unknown/1"))).get? 1 =
             none)) ∧
    (extract_gallery_id (pstr "https://www.imagefap.com/unknown/1") =
        .error .unrecognizedURLFormatError ↔
      hostOK (effStruct (pstr "https://www.imagefap.com/unknown/1")) = true ∧
        ∃ s0, (segsOf (effStruct (pstr "https://www.imagefap.com/unknown/1"))).head? =
            some s0 ∧
          ((s0 ≠ pstr "gallery" ∧ s0 ≠ pstr "pictures" ∧ s0 ≠ pstr "photo" ∧
            s0 ≠ pstr "gallery.php") ∨
           ((s0 = pstr "photo" ∨ s0 = pstr "gallery.php") ∧
            firstGidParam (effStruct (pstr "https://www.imagefap.com/unknown/1")) =
              none))) ∧
    ((∃ g, extract_gallery_id (pstr "https://www.imagefap.com/unknown/1") = .ok g) ↔
      hostOK (effStruct (pstr "https://www.imagefap.com/unknown/1")) = true ∧
        ∃ s0, (segsOf (effStruct (pstr "https://www.imagefap.com/unknown/1"))).head? =
            some s0 ∧
          (((s0 = pstr "gallery" ∨ s0 = pstr "pictures") ∧
            (segsOf (effStruct (pstr "https://www.imagefap.com/unknown/1"))).get? 1 ≠
              none) ∨
           ((s0 = pstr "photo" ∨ s0 = pstr "gallery.php") ∧
            firstGidParam (effStruct (pstr "https://www.imagefap.com/unknown/1")) ≠
              none))) :=
  c6_amended_failure_characterization (pstr "https://www.imagefap.com/unknown/1")
    (by decide) ⟨by decide, by decide⟩

/-- C5: the gallery source cache is a single unkeyed slot: from an
empty cache the first call performs exactly one fetch of the canonical
request URL, and any call that finds the cache filled — whatever
identity it asks for — performs no fetch and returns the cached
document unchanged. -/
theorem c5_single_slot_cache (fetch : PStr → Doc) (id1 id2 : PStr) :
    (get_gallery_source fetch id1 none).2.2 = 1 ∧
    (get_gallery_source fetch id1 none).1 = fetch (gallery_request_url id1) ∧
    get_gallery_source fetch id2 (get_gallery_source fetch id1 none).2.1 =
      ((get_gallery_source fetch id1 none).1,
       (get_gallery_source fetch id1 none).2.1, 0) ∧
    ∀ d : Doc, get_gallery_source fetch id2 (some d) = (d, some d, 0) :=
  ⟨rfl, rfl, rfl, fun _ => rfl⟩

/-- C7: with zero `#mainPhoto` elements, `download_image` fails with
`MissingPhotoError`, creating no directory, fetching no payload and
writing no file; with exactly one element it succeeds and writes
exactly one file named by that element's title attribute, containing
the fetched payload bytes. -/
theorem c7_zero_and_one_photo_elems (select : PStr → List PhotoElem)
    (fetchBytes : Option PStr → List Nat) (image_url dl_path : PStr) :
    (select image_url = [] →
      download_image select fetchBytes image_url dl_path =
        (.error .missingPhotoError, ⟨0, [], [], []⟩)) ∧
    (∀ e, select image_url = [e] →
      download_image select fetchBytes image_url dl_path =
        (.ok (), ⟨0, [dl_path], [e.src],
          [(dl_path ++ pstr "/" ++ pyOptStr e.title, fetchBytes e.src)]⟩)) := by
  constructor
  · intro h
    simp [download_image, h]
  · intro e h
    simp [download_image, h, List.isEmpty]

/-- Witness for C7 at a concrete page and element. -/
theorem c7_zero_and_one_photo_elems_witness :
    download_image (fun _ => []) (fun _ => [3]) (pstr "u") (pstr "d") =
      (.error .missingPhotoError, ⟨0, [], [], []⟩) ∧
    download_image (fun _ => [⟨some (pstr "t.jpg"), some (pstr "s")⟩])
        (fun _ => [3]) (pstr "u") (pstr "d") =
      (.ok (), ⟨0, [pstr "d"], [some (pstr "s")],
        [(pstr "d" ++ pstr "/" ++ pyOptStr (some (pstr "t.jpg")),
          (fun _ : Option PStr => [3]) (some (pstr "s")))]⟩) :=
  ⟨(c7_zero_and_one_photo_elems (fun _ => []) (fun _ => [3]) (pstr "u") (pstr "d")).1 rfl,
   (c7_zero_and_one_photo_elems (fun _ => [⟨some (pstr "t.jpg"), some (pstr "s")⟩])
      (fun _ => [3]) (pstr "u") (pstr "d")).2 ⟨some (pstr "t.jpg"), some (pstr "s")⟩ rfl⟩

/-- C8: with more than one `#mainPhoto` element, `download_image` does
not abort: it records exactly one warning, succeeds, and creates the
directory, fetches the payload and writes the file exactly as it would
on a page carrying only the first element. -/
theorem c8_multiple_photo_elems_warn_and_proceed (select : PStr → List PhotoElem)
    (fetchBytes : Option PStr → List Nat) (image_url dl_path : PStr)
    (e : PhotoElem) (rest : List PhotoElem)
    (h : select image_url = e :: rest) (hrest : rest ≠ []) :
    (download_image select fetchBytes image_url dl_path).1 = .ok () ∧
    (download_image select fetchBytes image_url dl_path).2.warnings = 1 ∧
    (download_image select fetchBytes image_url dl_path).2.dirsCreated =
      (download_image (fun _ => [e]) fetchBytes image_url dl_path).2.dirsCreated ∧
    (download_image select fetchBytes image_url dl_path).2.payloadFetches =
      (download_image (fun _ => [e]) fetchBytes image_url dl_path).2.payloadFetches ∧
    (download_image select fetchBytes image_url dl_path).2.filesWritten =
      (download_image (fun _ => [e]) fetchBytes image_url dl_path).2.filesWritten := by
  have hne : rest.isEmpty = false := by
    cases rest with
    | nil => exact absurd rfl hrest
    | cons x xs => rfl
  refine ⟨?_, ?_, ?_, ?_, ?_⟩ <;> simp [download_image, h, hne]

/-- Witness for C8 at a concrete two-element page. -/
theorem c8_multiple_photo_elems_warn_and_proceed_witness :
    (download_image (fun _ => [⟨some (pstr "a"), some (pstr "s1")⟩,
        ⟨some (pstr "b"), some (pstr "s2")⟩]) (fun _ => [9])
      (pstr "u") (pstr "d")).1 = .ok () ∧
    (download_image (fun _ => [⟨some (pstr "a"), some (pstr "s1")⟩,
        ⟨some (pstr "b"), some (pstr "s2")⟩]) (fun _ => [9])
      (pstr "u") (pstr "d")).2.warnings = 1 ∧
    (download_image (fun _ => [⟨some (pstr "a"), some (pstr "s1")⟩,
        ⟨some (pstr "b"), some (pstr "s2")⟩]) (fun _ => [9])
      (pstr "u") (pstr "d")).2.dirsCreated =
      (download_image (fun _ => [⟨some (pstr "a"), some (pstr "s1")⟩]) (fun _ => [9])
        (pstr "u") (pstr "d")).2.dirsCreated ∧
    (download_image (fun _ => [⟨some (pstr "a"), some (pstr "s1")⟩,
        ⟨some (pstr "b"), some (pstr "s2")⟩]) (fun _ => [9])
      (pstr "u") (pstr "d")).2.payloadFetches =
      (download_image (fun _ => [⟨some (pstr "a"), some (pstr "s1")⟩]) (fun _ => [9])
        (pstr "u") (pstr "d")).2.payloadFetches ∧
    (download_image (fun _ => [⟨some (pstr "a"), some (pstr "s1")⟩,
        ⟨some (pstr "b"), some (pstr "s2")⟩]) (fun _ => [9])
      (pstr "u") (pstr "d")).2.filesWritten =
      (download_image (fun _ => [⟨some (pstr "a"), some (pstr "s1")⟩]) (fun _ => [9])
        (pstr "u") (pstr "d")).2.filesWritten :=
  c8_multiple_photo_elems_warn_and_proceed _ _ (pstr "u") (pstr "d")
    ⟨some (pstr "a"), some (pstr "s1")⟩ [⟨some (pstr "b"), some (pstr "s2")⟩]
    rfl (by simp)

/-- C9: `extract_gallery_id` is a pure, deterministic function of its
input: run from any two process states on equal URL strings it produces
equal results, and leaves the process state (the gallery-source cache
slot) untouched. -/
theorem c9_resolver_pure_deterministic (u1 u2 : PStr) (s1 s2 : ProcState)
    (h : u1 = u2) :
    (extract_gallery_id_run s1 u1).1 = (extract_gallery_id_run s2 u2).1 ∧
    (extract_gallery_id_run s1 u1).2 = s1 ∧
    (extract_gallery_id_run s2 u2).2 = s2 := by
  subst h
  exact ⟨rfl, rfl, rfl⟩

/-- The dedup loop only ever emits hrefs of the document, in document
order: its result is a sublist of the accumulator followed by the
resolved href sequence. -/
theorem collectLinks_ok_sublist : ∀ (elems : List Anchor) (acc out : List PStr),
    collectLinks elems acc = .ok out → out.Sublist (acc ++ resolvedHrefs elems) := by
  intro elems
  induction elems with
  | nil =>
    intro acc out h
    simp only [collectLinks, Except.ok.injEq] at h
    subst h
    simp [resolvedHrefs]
  | cons a rest ih =>
    intro acc out h
    cases ha : a.href with
    | none => simp [collectLinks, ha] at h
    | some link =>
      simp only [collectLinks, ha] at h
      have hres : resolvedHrefs (a :: rest) = resolveHref link :: resolvedHrefs rest := by
        simp [resolvedHrefs, ha]
      rw [hres]
      by_cases hc : acc.contains (resolveHref link) = true
      · rw [if_pos hc] at h
        exact (ih acc out h).trans
          ((List.sublist_cons_self (resolveHref link) (resolvedHrefs rest)).append_left acc)
      · rw [if_neg hc] at h
        have := ih (acc ++ [resolveHref link]) out h
        simpa [List.append_assoc] using this

/-- The dedup loop preserves freedom from duplicates. -/
theorem collectLinks_ok_nodup : ∀ (elems : List Anchor) (acc out : List PStr),
    collectLinks elems acc = .ok out → acc.Nodup → out.Nodup := by
  intro elems
  induction elems with
  | nil =>
    intro acc out h hacc
    simp only [collectLinks, Except.ok.injEq] at h
    subst h
    exact hacc
  | cons a rest ih =>
    intro acc out h hacc
    cases ha : a.href with
    | none => simp [collectLinks, ha] at h
    | some link =>
      simp only [collectLinks, ha] at h
      by_cases hc : acc.contains (resolveHref link) = true
      · rw [if_pos hc] at h
        exact ih acc out h hacc
      · rw [if_neg hc] at h
        refine ih (acc ++ [resolveHref link]) out h ?_
        rw [List.nodup_append]
        refine ⟨hacc, List.nodup_singleton _, ?_⟩
        intro y hy hmem
        rw [List.mem_singleton] at hmem
        subst hmem
        exact hc (by simpa using hy)

/-- When every anchor carries an href the dedup loop never fails. -/
theorem collectLinks_ok_of_all_some : ∀ (elems : List Anchor) (acc : List PStr),
    (∀ a ∈ elems, a.href.isSome = true) → ∃ out, collectLinks elems acc = .ok out := by
  intro elems
  induction elems with
  | nil => exact fun acc _ => ⟨acc, rfl⟩
  | cons a rest ih =>
    intro acc hall
    have ha : a.href.isSome = true := hall a (List.mem_cons_self a rest)
    obtain ⟨link, hlink⟩ := Option.isSome_iff_exists.mp ha
    simp only [collectLinks, hlink]
    exact ih _ (fun x hx => hall x (List.mem_cons_of_mem a hx))

/-- An anchor without an href makes the dedup loop fail with the
attribute error, whatever came before it. -/
theorem collectLinks_error_of_none : ∀ (elems : List Anchor) (acc : List PStr),
    (∃ a ∈ elems, a.href = none) → collectLinks elems acc = .error .attributeError := by
  intro elems
  induction elems with
  | nil =>
    intro acc h
    obtain ⟨a, ha, _⟩ := h
    exact absurd ha (List.not_mem_nil a)
  | cons a rest ih =>
    intro acc h
    obtain ⟨w, hw, hnone⟩ := h
    rcases List.mem_cons.mp hw with heq | hmem
    · subst heq
      simp [collectLinks, hnone]
    · cases ha : a.href with
      | none => simp [collectLinks, ha]
      | some link =>
        simp only [collectLinks, ha]
        exact ih _ ⟨w, hmem, hnone⟩

/-- Dropping as many elements as the `takeWhile` run is `dropWhile`. -/
theorem drop_len_takeWhile (q : Char → Bool) :
    ∀ l : PStr, l.drop (l.takeWhile q).length = l.dropWhile q := by
  intro l
  induction l with
  | nil => rfl
  | cons c t ih =>
    by_cases hq : q c = true
    · simp [List.takeWhile_cons, List.dropWhile_cons, hq, ih]
    · simp [List.takeWhile_cons, List.dropWhile_cons, hq]

/-- A path accepted by the photo-page regex decomposes as `/photo/`,
a nonempty run of word characters, then `/`. -/
theorem photoPathMatch_shape (p : PStr) (h : photoPathMatch p = true) :
    ∃ tok r, tok ≠ [] ∧ tok.all isWordChar = true ∧
      p = pstr "/photo/" ++ tok ++ '/' :: r := by
  unfold photoPathMatch at h
  by_cases h7 : p.take 7 = pstr "/photo/"
  · rw [if_pos h7] at h
    simp only [Bool.and_eq_true, Bool.not_eq_true', decide_eq_true_eq] at h
    obtain ⟨hne, hslash⟩ := h
    have hsplit : (p.drop 7).takeWhile isWordChar ++ (p.drop 7).dropWhile isWordChar =
        p.drop 7 := List.takeWhile_append_dropWhile isWordChar (p.drop 7)
    rw [drop_len_takeWhile isWordChar (p.drop 7)] at hslash
    cases hd : (p.drop 7).dropWhile isWordChar with
    | nil => rw [hd] at hslash; simp at hslash
    | cons c t =>
      rw [hd] at hslash
      simp only [List.take_succ_cons, List.take_zero, List.cons.injEq, and_true] at hslash
      subst hslash
      refine ⟨(p.drop 7).takeWhile isWordChar, t, ?_, ?_, ?_⟩
      · intro hcon
        rw [hcon] at hne
        simp [List.isEmpty] at hne
      · exact List.all_eq_true.mpr (fun x hx => List.mem_takeWhile_imp hx)
      · conv_lhs => rw [← List.take_append_drop 7 p, h7, ← hsplit, hd]
        rw [List.append_assoc]
  · rw [if_neg h7] at h
    simp at h

/-- One step of the first-occurrence dedup on a seen element. -/
theorem dedupFirstAux_cons_mem {seen : List PStr} {x : PStr} (h : x ∈ seen)
    (xs : List PStr) : dedupFirstAux seen (x :: xs) = dedupFirstAux seen xs := by
  show (if x ∈ seen then dedupFirstAux seen xs
        else x :: dedupFirstAux (x :: seen) xs) = dedupFirstAux seen xs
  rw [if_pos h]

/-- One step of the first-occurrence dedup on an unseen element. -/
theorem dedupFirstAux_cons_not_mem {seen : List PStr} {x : PStr} (h : x ∉ seen)
    (xs : List PStr) :
    dedupFirstAux seen (x :: xs) = x :: dedupFirstAux (x :: seen) xs := by
  show (if x ∈ seen then dedupFirstAux seen xs
        else x :: dedupFirstAux (x :: seen) xs) =
      x :: dedupFirstAux (x :: seen) xs
  rw [if_neg h]

/-- The dedup loop of `get_image_URLs` computes exactly the
first-occurrence deduplication of the resolved href sequence, relative
to any accumulator and any seen-set with the same members. -/
theorem collectLinks_eq_dedupFirstAux : ∀ (elems : List Anchor) (acc seen out : List PStr),
    (∀ x : PStr, x ∈ seen ↔ x ∈ acc) →
    collectLinks elems acc = .ok out →
    out = acc ++ dedupFirstAux seen (resolvedHrefs elems) := by
  intro elems
  induction elems with
  | nil =>
    intro acc seen out hiff h
    simp only [collectLinks, Except.ok.injEq] at h
    subst h
    simp [resolvedHrefs, dedupFirstAux]
  | cons a rest ih =>
    intro acc seen out hiff h
    cases ha : a.href with
    | none => simp [collectLinks, ha] at h
    | some link =>
      simp only [collectLinks, ha] at h
      have hres : resolvedHrefs (a :: rest) = resolveHref link :: resolvedHrefs rest := by
        simp [resolvedHrefs, ha]
      rw [hres]
      by_cases hc : acc.contains (resolveHref link) = true
      · rw [if_pos hc] at h
        have hseen : resolveHref link ∈ seen := (hiff _).mpr (by simpa using hc)
        rw [dedupFirstAux_cons_mem hseen]
        exact ih acc seen out hiff h
      · rw [if_neg hc] at h
        have hnm : resolveHref link ∉ acc := fun hm => hc (by simpa using hm)
        have hnseen : resolveHref link ∉ seen := fun hs => hnm ((hiff _).mp hs)
        have hiff' : ∀ x : PStr,
            x ∈ resolveHref link :: seen ↔ x ∈ acc ++ [resolveHref link] := by
          intro x
          rw [List.mem_cons, List.mem_append, List.mem_singleton, hiff x, or_comm]
        have hout := ih (acc ++ [resolveHref link]) (resolveHref link :: seen) out hiff' h
        rw [hout, dedupFirstAux_cons_not_mem hnseen]
        simp [List.append_assoc]

/-- C4: a successful link extraction returns exactly the
first-occurrence deduplication of the document-order resolved href
sequence, filtered by the relevance test — hence a duplicate-free list,
a sublist of that sequence with each element at the position of its
first occurrence, every link's parsed path starting with `/photo/`, one
or more word characters and `/`. -/
theorem c4_dedup_order_and_shape (gallery_id : PStr) (doc : Doc) (out : List PStr)
    (h : get_image_URLs gallery_id doc = .ok out) :
    out = (dedupFirst (resolvedHrefs doc.anchors)).filter (isRelevantLink gallery_id) ∧
    out.Nodup ∧ out.Sublist (resolvedHrefs doc.anchors) ∧
    ∀ link ∈ out, ∃ tok r, tok ≠ [] ∧ tok.all isWordChar = true ∧
      (pyUrlparse link).path = pstr "/photo/" ++ tok ++ '/' :: r := by
  cases hcoll : collectLinks doc.anchors [] with
  | error e => simp [get_image_URLs, hcoll] at h
  | ok links =>
    cases hany : links.any urlsplitRaises with
    | true => simp [get_image_URLs, hcoll, hany] at h
    | false =>
      simp only [get_image_URLs, hcoll, hany, Bool.false_eq_true, if_false,
        Except.ok.injEq] at h
      subst h
      have hlinks : links = dedupFirst (resolvedHrefs doc.anchors) := by
        have := collectLinks_eq_dedupFirstAux doc.anchors [] [] links
          (fun _ => Iff.rfl) hcoll
        simpa [dedupFirst] using this
      refine ⟨by rw [hlinks], ?_, ?_, ?_⟩
      · exact (collectLinks_ok_nodup doc.anchors [] links hcoll List.nodup_nil).filter _
      · exact (List.filter_sublist links).trans
          (by simpa using collectLinks_ok_sublist doc.anchors [] links hcoll)
      · intro link hmem
        have hrel : isRelevantLink gallery_id link = true := List.of_mem_filter hmem
        have hmatch : photoPathMatch (pyUrlparse link).path = true := by
          simp only [isRelevantLink, Bool.and_eq_true] at hrel
          exact hrel.1
        exact photoPathMatch_shape _ hmatch

/-- Witness for C4: a document with a duplicated anchor, a
cross-gallery anchor and a non-photo anchor. -/
theorem c4_dedup_order_and_shape_witness :
    [pstr "https://www.imagefap.com/photo/111/?pgid=&gid=12345678&page=0"] =
      (dedupFirst (resolvedHrefs [⟨some (pstr "/photo/111/?pgid=&gid=12345678&page=0")⟩,
        ⟨some (pstr "/photo/111/?pgid=&gid=12345678&page=0")⟩,
        ⟨some (pstr "/photo/222/?pgid=&gid=999&page=0")⟩, ⟨some (pstr "/about")⟩])).filter
        (isRelevantLink (pstr "12345678")) ∧
    [pstr "https://www.imagefap.com/photo/111/?pgid=&gid=12345678&page=0"].Nodup ∧
    List.Sublist [pstr "https://www.imagefap.com/photo/111/?pgid=&gid=12345678&page=0"]
      (resolvedHrefs [⟨some (pstr "/photo/111/?pgid=&gid=12345678&page=0")⟩,
        ⟨some (pstr "/photo/111/?pgid=&gid=12345678&page=0")⟩,
        ⟨some (pstr "/photo/222/?pgid=&gid=999&page=0")⟩, ⟨some (pstr "/about")⟩]) ∧
    ∀ link ∈ [pstr "https://www.imagefap.com/photo/111/?pgid=&gid=12345678&page=0"],
      ∃ tok r, tok ≠ [] ∧ tok.all isWordChar = true ∧
        (pyUrlparse link).path = pstr "/photo/" ++ tok ++ '/' :: r :=
  c4_dedup_order_and_shape (pstr "12345678")
    ⟨[⟨some (pstr "/photo/111/?pgid=&gid=12345678&page=0")⟩,
      ⟨some (pstr "/photo/111/?pgid=&gid=12345678&page=0")⟩,
      ⟨some (pstr "/photo/222/?pgid=&gid=999&page=0")⟩, ⟨some (pstr "/about")⟩]⟩
    [pstr "https://www.imagefap.com/photo/111/?pgid=&gid=12345678&page=0"] (by decide)

/-- C2 counterexample: filtering for identity `100`, the extractor
returns a link whose `gid` query parameter value is `1000`, not `100` —
the returned link does not reference the requested identity by
query-parameter equality. -/
theorem c2_counterexample_gid_param_differs :
    get_image_URLs (pstr "100") ⟨[⟨some (pstr "/photo/123/?gid=1000")⟩]⟩ =
      .ok [pstr "https://www.imagefap.com/photo/123/?gid=1000"] ∧
    gidParamValue (pstr "https://www.imagefap.com/photo/123/?gid=1000") =
      some (pstr "1000") ∧
    gidParamValue (pstr "https://www.imagefap.com/photo/123/?gid=1000") ≠
      some (pstr "100") :=
  ⟨by decide, by decide, by decide⟩

/-- C2 amended: every link a successful extraction returns carries
`gid=<identity>` as a substring of its query string (substring
containment, not query-parameter equality) — links whose query lacks
that substring never appear in the output. -/
theorem c2_amended_gid_substring_invariant (gallery_id : PStr) (doc : Doc)
    (out : List PStr) (h : get_image_URLs gallery_id doc = .ok out) :
    ∀ link ∈ out, containsSubC (pstr "gid=" ++ gallery_id) (pyUrlparse link).query = true := by
  cases hcoll : collectLinks doc.anchors [] with
  | error e => simp [get_image_URLs, hcoll] at h
  | ok links =>
    cases hany : links.any urlsplitRaises with
    | true => simp [get_image_URLs, hcoll, hany] at h
    | false =>
      simp only [get_image_URLs, hcoll, hany, Bool.false_eq_true, if_false,
        Except.ok.injEq] at h
      subst h
      intro link hmem
      have hrel : isRelevantLink gallery_id link = true := List.of_mem_filter hmem
      simp only [isRelevantLink, Bool.and_eq_true] at hrel
      exact hrel.2

/-- Witness for the amended C2 at a concrete document and link. -/
theorem c2_amended_gid_substring_invariant_witness :
    containsSubC (pstr "gid=" ++ pstr "12345678")
      (pyUrlparse (pstr "https://www.imagefap.com/photo/111/?pgid=&gid=12345678&page=0")).query =
      true :=
  c2_amended_gid_substring_invariant (pstr "12345678")
    ⟨[⟨some (pstr "/photo/111/?pgid=&gid=12345678&page=0")⟩,
      ⟨some (pstr "/photo/222/?pgid=&gid=999&page=0")⟩]⟩
    [pstr "https://www.imagefap.com/photo/111/?pgid=&gid=12345678&page=0"] (by decide)
    (pstr "https://www.imagefap.com/photo/111/?pgid=&gid=12345678&page=0") (by decide)

/-- C3: the gallery-identity filter is substring containment, not
exact query-parameter equality: filtering for identity `100`, a link
carrying `gid=1000` is included in the output (its actual `gid`
parameter value being `1000`). -/
theorem c3_substring_containment_filter :
    get_image_URLs (pstr "100")
        ⟨[⟨some (pstr "https://www.imagefap.com/photo/55/?gid=1000")⟩]⟩ =
      .ok [pstr "https://www.imagefap.com/photo/55/?gid=1000"] ∧
    gidParamValue (pstr "https://www.imagefap.com/photo/55/?gid=1000") =
      some (pstr "1000") ∧
    containsSubC (pstr "gid=" ++ pstr "100")
      (pyUrlparse (pstr "https://www.imagefap.com/photo/55/?gid=1000")).query = true :=
  ⟨by decide, by decide, by decide⟩

/-- C10 counterexample: a document whose every anchor carries an href
on which extraction nevertheless fails: the href `http://[/x` survives
the dedup loop and then the per-link `urlparse` of the filter loop
raises `ValueError` (Invalid IPv6 URL). -/
theorem c10_counterexample_bracket_href :
    (⟨[⟨some (pstr "http://[/x")⟩]⟩ : Doc).anchors.all (fun a => a.href.isSome) = true ∧
    get_image_URLs (pstr "1") ⟨[⟨some (pstr "http://[/x")⟩]⟩ = .error .valueError :=
  ⟨by decide, by decide⟩

/-- C10 amended: when every anchor has an href and every href is ASCII
without square brackets (so the per-link `urlparse` of the filter loop
cannot raise), extraction never fails; an anchor without an href still
makes extraction fail with the attribute error, dereferenced before the
dedup/filter steps, rather than being skipped. -/
theorem c10_amended_href_presupposition (gallery_id : PStr) (doc : Doc) :
    ((∀ a ∈ doc.anchors, a.href.isSome = true) →
      (∀ a ∈ doc.anchors, ∀ l, a.href = some l →
        (∀ c ∈ l, c.toNat ≤ 127) ∧ '[' ∉ l ∧ ']' ∉ l) →
      ∃ out, get_image_URLs gallery_id doc = .ok out) ∧
    ((∃ a ∈ doc.anchors, a.href = none) →
      get_image_URLs gallery_id doc = .error .attributeError) := by
  constructor
  · intro hall hbrs
    obtain ⟨links, hlinks⟩ := collectLinks_ok_of_all_some doc.anchors [] hall
    have hany : links.any urlsplitRaises = false := by
      rw [List.any_eq_false]
      intro link hlink
      have hmem : link ∈ resolvedHrefs doc.anchors := by
        have := (collectLinks_ok_sublist doc.anchors [] links hlinks).subset hlink
        simpa using this
      simp only [resolvedHrefs, List.mem_map, List.mem_filterMap] at hmem
      obtain ⟨l0, ⟨a, ha, hhref⟩, rfl⟩ := hmem
      obtain ⟨_, hb1, hb2⟩ := hbrs a ha l0 hhref
      have h1 : '[' ∉ resolveHref l0 := by
        unfold resolveHref
        by_cases hsl : l0.take 1 = ['/']
        · rw [if_pos hsl]
          exact not_mem_append_of (by decide) hb1
        · rw [if_neg hsl]
          exact hb1
      have h2 : ']' ∉ resolveHref l0 := by
        unfold resolveHref
        by_cases hsl : l0.take 1 = ['/']
        · rw [if_pos hsl]
          exact not_mem_append_of (by decide) hb2
        · rw [if_neg hsl]
          exact hb2
      simp [urlsplitRaises_eq_false_of_no_brackets _ h1 h2]
    exact ⟨links.filter (isRelevantLink gallery_id), by
      simp [get_image_URLs, hlinks, hany]⟩
  · intro hnone
    have := collectLinks_error_of_none doc.anchors [] hnone
    simp [get_image_URLs, this]

/-- Witness for the amended C10: an all-href bracket-free document
succeeds, a document with an href-less anchor fails. -/
theorem c10_amended_href_presupposition_witness :
    (∃ out, get_image_URLs (pstr "1") ⟨[⟨some (pstr "/x")⟩]⟩ = .ok out) ∧
    get_image_URLs (pstr "1") ⟨[⟨some (pstr "/x")⟩, ⟨none⟩]⟩ =
      .error .attributeError :=
  ⟨(c10_amended_href_presupposition (pstr "1") ⟨[⟨some (pstr "/x")⟩]⟩).1 (by decide)
     (by
       intro a ha l hl
       have haa : a = ⟨some (pstr "/x")⟩ := by simpa using ha
       subst haa
       have hll : l = pstr "/x" := (Option.some.inj hl).symm
       subst hll
       exact ⟨by decide, by decide, by decide⟩),
   (c10_amended_href_presupposition (pstr "1") ⟨[⟨some (pstr "/x")⟩, ⟨none⟩]⟩).2
     ⟨⟨none⟩, by decide, rfl⟩⟩

/-- Witness for C9 at a concrete URL and two distinct states. -/
theorem c9_resolver_pure_deterministic_witness :
    (extract_gallery_id_run ⟨none⟩ (pstr "https://www.imagefap.com/gallery/1")).1 =
      (extract_gallery_id_run ⟨some ⟨[]⟩⟩ (pstr "https://www.imagefap.com/gallery/1")).1 ∧
    (extract_gallery_id_run ⟨none⟩ (pstr "https://www.imagefap.com/gallery/1")).2 = ⟨none⟩ ∧
    (extract_gallery_id_run ⟨some ⟨[]⟩⟩ (pstr "https://www.imagefap.com/gallery/1")).2 =
      ⟨some ⟨[]⟩⟩ :=
  c9_resolver_pure_deterministic _ _ ⟨none⟩ ⟨some ⟨[]⟩⟩ rfl

end Imgfapdl
